import Mathlib

/-!
Verification development for the tabular data-cleaning pipeline in
`datacleaning.ipynb` (functions `check_data_quality`, `standardize_datatypes`,
`handle_missing_values`, `remove_outliers`, `validate_cleaning`,
`automated_cleaning_pipeline`).

The pandas DataFrame is embedded as an ordered list of named, typed columns.
A column carries one of the four dtypes that occur in the pipeline:
`object` (text), `int64`, `float64`, `datetime64`.  Missing cells (`NaN`/`NaT`)
are `Option.none`; an `int64` column cannot hold a missing cell, exactly as in
pandas.  Numeric values are modelled as exact rationals (`ℚ`): every statistic
the pipeline computes (median, linear-interpolation quantiles, percentages)
is rational-valued on rational inputs, so this is lossless for the program's
arithmetic on the inputs considered here.

String-to-value parsing (`pd.to_datetime`, `pd.to_numeric`) is modelled by
executable recognisers for the formats the notebook relies on: ISO
`YYYY-MM-DD` dates, and optionally signed decimal numerals (with an optional
fractional part).  The all-or-nothing conversion policy of
`standardize_datatypes` is independent of the exact parser and is stated
relative to these recognisers.
-/

attribute [local semireducible] Rat.add Rat.mul Rat.sub Rat.inv Rat.ofScientific

namespace DataCleaning

/-- Column payloads, one constructor per pandas dtype used by the pipeline.
`obj` is an `object` (text) column, `int64` an integer column (pandas `int64`
columns cannot contain `NaN`), `float64` a floating-point column with `none`
for `NaN`, and `datetime` a `datetime64` column with `none` for `NaT`. -/
inductive Col where
  | obj      : List (Option String) → Col
  | int64    : List Int → Col
  | float64  : List (Option ℚ) → Col
  | datetime : List (Option Int) → Col
deriving DecidableEq, Repr

/-- A DataFrame: ordered association list of column name to column payload. -/
abbrev Table := List (String × Col)

/-- Number of cells in a column. -/
def colLen : Col → Nat
  | Col.obj cs => cs.length
  | Col.int64 cs => cs.length
  | Col.float64 cs => cs.length
  | Col.datetime cs => cs.length

/-- Row count of the table, `len(df)`: the common length of its columns
(0 for a table with no columns). -/
def nRows : Table → Nat
  | [] => 0
  | c :: _ => colLen c.2

/-- Per-column count of missing cells, `df[col].isnull().sum()`. -/
def colMissing : Col → Nat
  | Col.obj cs => cs.countP Option.isNone
  | Col.int64 _ => 0
  | Col.float64 cs => cs.countP Option.isNone
  | Col.datetime cs => cs.countP Option.isNone

/-- A scalar cell value as compared by `df.duplicated()`: pandas treats two
`NaN` cells in the same column as equal for duplicate detection. -/
inductive CellV where
  | na : CellV
  | s : String → CellV
  | n : ℚ → CellV
  | t : Int → CellV
deriving DecidableEq, Repr

/-- The value of row `i` in a column. -/
def cellAt : Col → Nat → CellV
  | Col.obj cs, i =>
      match cs.getD i none with
      | some v => CellV.s v
      | none => CellV.na
  | Col.int64 cs, i => CellV.n (cs.getD i 0)
  | Col.float64 cs, i =>
      match cs.getD i none with
      | some v => CellV.n v
      | none => CellV.na
  | Col.datetime cs, i =>
      match cs.getD i none with
      | some v => CellV.t v
      | none => CellV.na

/-- Row `i` of the table as a tuple of cell values. -/
def rowAt (df : Table) (i : Nat) : List CellV :=
  df.map (fun p => cellAt p.2 i)

/-- Count of rows equal to an earlier row, accumulating the rows already seen:
this is `df.duplicated().sum()`. -/
def dupCount : List (List CellV) → List (List CellV) → Nat
  | _, [] => 0
  | seen, r :: rest => (if r ∈ seen then 1 else 0) + dupCount (r :: seen) rest

/-- `df.duplicated().sum()` over the whole table. -/
def duplicates (df : Table) : Nat :=
  dupCount [] ((List.range (nRows df)).map (rowAt df))

/-- The quality report produced by `check_data_quality`. -/
structure QualityReport where
  missing_values : List (String × Nat)
  duplicates : Nat
  total_rows : Nat
  memory_usage : ℚ
deriving DecidableEq, Repr

/-- Step 1, `check_data_quality(df)`.  The function only reads `df`, so its
state-passing embedding returns the table unchanged next to the report.
`memory_usage` models `df.memory_usage().sum() / 1024**2`: a 132-byte range
index plus 8 bytes per cell, in megabytes. -/
def check_data_quality (df : Table) : Table × QualityReport :=
  (df,
   { missing_values := df.map (fun p => (p.1, colMissing p.2)),
     duplicates := duplicates df,
     total_rows := nRows df,
     memory_usage := ((132 : ℚ) + 8 * (nRows df) * df.length) / 1048576 })

/-- Numeric value of a digit list, most significant first. -/
def digitsVal (l : List Char) : Nat :=
  l.foldl (fun a c => a * 10 + (c.toNat - 48)) 0

/-- Model of the date parsing done by `pd.to_datetime`, restricted to the ISO
`YYYY-MM-DD` format (the notebook relies only on whole-column success or
failure of parsing; a parsed date is encoded as the integer `y*10000+m*100+d`). -/
def parseDate (s : String) : Option Int :=
  match s.toList.splitOn '-' with
  | [y, m, d] =>
      if y.length = 4 && m.length = 2 && d.length = 2 &&
         y.all Char.isDigit && m.all Char.isDigit && d.all Char.isDigit &&
         1 ≤ digitsVal m && digitsVal m ≤ 12 &&
         1 ≤ digitsVal d && digitsVal d ≤ 31 then
        some ((digitsVal y : Int) * 10000 + (digitsVal m : Int) * 100 + digitsVal d)
      else none
  | _ => none

/-- Digit-list recogniser: nonempty and all decimal digits. -/
def isDigits (l : List Char) : Bool :=
  !l.isEmpty && l.all Char.isDigit

/-- Unsigned numeral: either an integer `123` or a decimal `12.5` / `12.` /
`.5` (at least one digit overall), as accepted by `pd.to_numeric`. -/
def parseNumCore (l : List Char) : Option ℚ :=
  match l.splitOn '.' with
  | [a] => if isDigits a then some (digitsVal a) else none
  | [a, b] =>
      if (!a.isEmpty || !b.isEmpty) && a.all Char.isDigit && b.all Char.isDigit then
        some ((digitsVal a : ℚ) + (digitsVal b : ℚ) / 10 ^ b.length)
      else none
  | _ => none

/-- Model of `pd.to_numeric` on a single string: optional sign, then an
unsigned decimal numeral. -/
def parseNum (s : String) : Option ℚ :=
  match s.toList with
  | '-' :: rest => (parseNumCore rest).map (fun q => -q)
  | '+' :: rest => parseNumCore rest
  | l => parseNumCore l

/-- Integer-numeral recogniser (no decimal point): `pd.to_numeric` produces an
`int64` column exactly when every parsed string is such a numeral and the
column has no missing cell. -/
def parseIntStr (s : String) : Option Int :=
  match s.toList with
  | '-' :: rest => if isDigits rest then some (-(digitsVal rest : Int)) else none
  | '+' :: rest => if isDigits rest then some (digitsVal rest) else none
  | l => if isDigits l then some (digitsVal l) else none

/-- Strip currency symbols and thousands separators:
`.str.replace('$', '').str.replace(',', '')` (literal, all occurrences; for
the single-character patterns of the source this is exactly a character
filter). -/
def stripMoney (s : String) : String :=
  String.mk (s.toList.filter (fun c => !(c == '$' || c == ',')))

/-- Does every present (non-missing) cell satisfy the predicate? -/
def presentAll (p : String → Bool) (cells : List (Option String)) : Bool :=
  cells.all (fun c =>
    match c with
    | none => true
    | some v => p v)

/-- Per-column body of `standardize_datatypes` for an `object` column: first
try `pd.to_datetime` (succeeds iff every present cell parses as a date;
missing cells become `NaT`); on failure try
`pd.to_numeric(col.str.replace('$','').str.replace(',',''))` (succeeds iff
every present cell parses as a number after stripping; the result dtype is
`int64` when there is no missing cell and every numeral is an integer, and
`float64` otherwise); on failure the column is left unchanged. -/
def convertCol (cells : List (Option String)) : Col :=
  if presentAll (fun v => (parseDate v).isSome) cells then
    Col.datetime (cells.map (fun c => c.bind parseDate))
  else if presentAll (fun v => (parseNum (stripMoney v)).isSome) cells then
    if cells.all Option.isSome && presentAll (fun v => (parseIntStr (stripMoney v)).isSome) cells then
      Col.int64 (cells.map (fun c => (c.bind (fun v => parseIntStr (stripMoney v))).getD 0))
    else
      Col.float64 (cells.map (fun c => c.bind (fun v => parseNum (stripMoney v))))
  else Col.obj cells

/-- Columns whose dtype is not `object` are skipped by the loop's dtype test. -/
def standardizeCol : Col → Col
  | Col.obj cells => convertCol cells
  | c => c

/-- Step 2, `standardize_datatypes(df)`. -/
def standardize_datatypes (df : Table) : Table :=
  df.map (fun p => (p.1, standardizeCol p.2))

/-- Median of a list of rationals, as computed by `SimpleImputer(strategy=
'median')` over the present values of a column (`np.nanmedian`): the middle
element of the sorted list for odd length, the mean of the two middle elements
for even length.  Meaningful only for nonempty lists; the imputer raises
before reaching an empty one. -/
def median (l : List ℚ) : ℚ :=
  let s := l.insertionSort (· ≤ ·)
  if s.length % 2 = 1 then s.getD (s.length / 2) 0
  else (s.getD (s.length / 2 - 1) 0 + s.getD (s.length / 2) 0) / 2

/-- Strict lexicographic comparison of character lists by code point, the
order Python uses on `str` (a proper prefix is smaller). -/
def charListLt : List Char → List Char → Bool
  | [], [] => false
  | [], _ :: _ => true
  | _ :: _, [] => false
  | a :: as, b :: bs =>
      if a.toNat < b.toNat then true
      else if b.toNat < a.toNat then false
      else charListLt as bs

/-- The smaller of two strings in Python's string order. -/
def strMin (a b : String) : String :=
  if charListLt b.toList a.toList then b else a

/-- Most frequent value of a list, as computed by `SimpleImputer(strategy=
'most_frequent')` on object data: among the values attaining the maximal
multiplicity, the smallest one is chosen (sklearn ties break by `min`, like
`scipy.stats.mode`).  Meaningful only for nonempty lists. -/
def modeMin (l : List String) : String :=
  let m := (l.map (fun v => l.count v)).foldr max 0
  match l.filter (fun v => l.count v = m) with
  | [] => ""
  | t :: ts => ts.foldl strMin t

/-- Per-column body of `handle_missing_values`.  Numeric columns go through
`SimpleImputer(strategy='median').fit_transform`, which returns a `float64`
array — so `int64` columns are rewritten as `float64` even when nothing is
missing — with every missing cell replaced by the column's median over present
values.  Object columns are imputed with the most frequent present value.
Datetime columns are neither numeric nor object and are left untouched. -/
def imputeCol : Col → Col
  | Col.int64 cs => Col.float64 (cs.map (fun (z : Int) => some ((z : ℚ))))
  | Col.float64 cs => Col.float64 (cs.map (fun c => some (c.getD (median (cs.filterMap id)))))
  | Col.obj cs => Col.obj (cs.map (fun c => some (c.getD (modeMin (cs.filterMap id)))))
  | c => c

/-- Step 3, `handle_missing_values(df)`.  `SimpleImputer.fit_transform` raises
when given 0 rows, and drops an all-missing column (making the subsequent
DataFrame assignment raise on a shape mismatch); either way the exception
propagates, modelled as `none`.  On success every `int64`/`float64`/`object`
column is imputed (`int64` columns cannot contain missing cells, and their
selection forces row count `> 0` for the numeric imputer). -/
def handle_missing_values (df : Table) : Option Table :=
  if df.any (fun p =>
       match p.2 with
       | Col.int64 cs => cs.isEmpty
       | Col.float64 cs => (cs.filterMap id).isEmpty
       | _ => false) then none
  else if df.any (fun p =>
       match p.2 with
       | Col.obj cs => (cs.filterMap id).isEmpty
       | _ => false) then none
  else some (df.map (fun p => (p.1, imputeCol p.2)))

/-- Linear interpolation of a sorted value list `s` at a fractional position
`pos`: between `s[floor(pos)]` and the following element (the following
element defaults to `s[floor(pos)]` itself at the top of the range). -/
def interpAt (s : List ℚ) (pos : ℚ) : ℚ :=
  s.getD (⌊pos⌋).toNat 0 +
    (pos - (((⌊pos⌋).toNat : Nat) : ℚ)) *
      (s.getD ((⌊pos⌋).toNat + 1) (s.getD (⌊pos⌋).toNat 0) - s.getD (⌊pos⌋).toNat 0)

/-- Linear-interpolation quantile over a list of values, the default
`Series.quantile(q)` estimator of pandas: with the values in ascending order,
interpolate at position `q * (n - 1)`. -/
def quantile (l : List ℚ) (q : ℚ) : ℚ :=
  interpAt (l.insertionSort (· ≤ ·)) (q * ((l.length : ℚ) - 1))

/-- The lower outlier fence `Q1 - 1.5 * IQR` of `remove_outliers`, over the
present values of a column. -/
def lowerB (pres : List ℚ) : ℚ :=
  quantile pres (1 / 4) - (3 / 2) * (quantile pres (3 / 4) - quantile pres (1 / 4))

/-- The upper outlier fence `Q3 + 1.5 * IQR` of `remove_outliers`. -/
def upperB (pres : List ℚ) : ℚ :=
  quantile pres (3 / 4) + (3 / 2) * (quantile pres (3 / 4) - quantile pres (1 / 4))

/-- Count of cells strictly outside the fences before capping:
`df[(df[column] < lower_bound) | (df[column] > upper_bound)].shape[0]`
(`NaN` compares false to both fences, so only present cells count). -/
def outlierCount (cells : List (Option ℚ)) : Nat :=
  ((cells.filterMap id).filter
    (fun x => x < lowerB (cells.filterMap id) || upperB (cells.filterMap id) < x)).length

/-- Body of `remove_outliers` on the cell list of one numeric column: compute
the quantile fences over present values, count the cells strictly outside
them, and clip every present cell into the fences
(`df[column].clip(lower=lower_bound, upper=upper_bound)`, i.e.
`min(upper, max(lower, x))`; `NaN` cells stay `NaN`).  On a column with no
present value both quantiles are `NaN`, the comparisons are all false and
`clip` with `NaN` fences is the identity — modelled by the emptiness guard. -/
def capCells (cells : List (Option ℚ)) : List (Option ℚ) × Nat :=
  if (cells.filterMap id).isEmpty then (cells, 0)
  else
    (cells.map (Option.map
       (fun x => min (upperB (cells.filterMap id)) (max (lowerB (cells.filterMap id)) x))),
     outlierCount cells)

/-- Per-column action of `remove_outliers`: only `int64`/`float64` columns are
selected; clipping an `int64` column against the float-valued fences upcasts
it to `float64`.  Non-numeric columns are untouched and report count 0. -/
def capColC : Col → Col × Nat
  | Col.int64 cs =>
      if cs.isEmpty then (Col.int64 cs, 0)
      else
        ((Col.float64 (capCells (cs.map (fun (z : Int) => some ((z : ℚ))))).1),
         (capCells (cs.map (fun (z : Int) => some ((z : ℚ))))).2)
  | Col.float64 cs => (Col.float64 (capCells cs).1, (capCells cs).2)
  | c => (c, 0)

/-- Step 4, `remove_outliers(df)`: returns the capped table and the
`outliers_removed` map, which records a column's outlier count only when it
is positive, in column order. -/
def remove_outliers (df : Table) : Table × List (String × Nat) :=
  (df.map (fun p => (p.1, (capColC p.2).1)),
   df.filterMap (fun p =>
     if 0 < (capColC p.2).2 then some (p.1, (capColC p.2).2) else none))

/-- The validation block produced by `validate_cleaning`. -/
structure Validation where
  rows_remaining : Nat
  missing_values_remaining : Nat
  duplicates_remaining : Nat
  data_loss_percentage : ℚ
deriving DecidableEq, Repr

/-- The cleaning report accumulated across the run; each stage only adds its
own entry, mirroring the growing Python dict. -/
structure CleaningReport where
  initial_quality : Option QualityReport := none
  outliers_removed : Option (List (String × Nat)) := none
  validation : Option Validation := none
deriving DecidableEq, Repr

/-- Step 5, `validate_cleaning(df, original_shape, cleaning_report)`.  The
function only reads `df`; `data_loss_percentage` is
`(1 - len(df)/original_shape[0]) * 100`, and Python's division raises
`ZeroDivisionError` when the original table had no rows (modelled by `none`). -/
def validate_cleaning (df : Table) (original_shape : Nat × Nat)
    (report : CleaningReport) : Table × Option CleaningReport :=
  (df,
   if original_shape.1 = 0 then none
   else some
     { report with validation := some (
       { rows_remaining := nRows df,
         missing_values_remaining := (df.map (fun p => colMissing p.2)).sum,
         duplicates_remaining := duplicates df,
         data_loss_percentage := (1 - (nRows df : ℚ) / (original_shape.1 : ℚ)) * 100
         : Validation }) })

/-- The orchestrator `automated_cleaning_pipeline(df)`: capture the original
shape, audit, normalize, impute, cap, validate, in that order, sharing one
table and one growing report.  An exception from any stage propagates to the
caller (`none`). -/
def automated_cleaning_pipeline (df : Table) : Option (Table × CleaningReport) :=
  let original_shape : Nat × Nat := (nRows df, df.length)
  let audited := check_data_quality df
  let report1 : CleaningReport := { initial_quality := some audited.2 }
  let df2 := standardize_datatypes audited.1
  match handle_missing_values df2 with
  | none => none
  | some df3 =>
      let capped := remove_outliers df3
      let report2 := { report1 with outliers_removed := some capped.2 }
      match validate_cleaning capped.1 original_shape report2 with
      | (_, none) => none
      | (df5, some rep) => some (df5, rep)

/-! ### Shape-preservation lemmas -/

/-- The name-and-length signature of a table: column names in order, each with
its cell count. -/
def colSig (df : Table) : List (String × Nat) :=
  df.map (fun p => (p.1, colLen p.2))

@[simp] lemma colLen_convertCol (cells : List (Option String)) :
    colLen (convertCol cells) = cells.length := by
  unfold convertCol
  split_ifs <;> first
    | rfl
    | exact List.length_map cells _

@[simp] lemma colLen_standardizeCol (c : Col) : colLen (standardizeCol c) = colLen c := by
  cases c with
  | obj cells => exact colLen_convertCol cells
  | int64 cs => rfl
  | float64 cs => rfl
  | datetime cs => rfl

@[simp] lemma colLen_imputeCol (c : Col) : colLen (imputeCol c) = colLen c := by
  cases c with
  | obj cs => exact List.length_map cs _
  | int64 cs => exact List.length_map cs _
  | float64 cs => exact List.length_map cs _
  | datetime cs => rfl

@[simp] lemma length_capCells (cells : List (Option ℚ)) :
    (capCells cells).1.length = cells.length := by
  unfold capCells
  split_ifs with h
  · rfl
  · exact List.length_map cells _

@[simp] lemma colLen_capColC (c : Col) : colLen (capColC c).1 = colLen c := by
  cases c with
  | int64 cs =>
      by_cases h : cs.isEmpty
      · simp [capColC, h, colLen]
      · simp only [capColC, h, if_false, Bool.false_eq_true, colLen]
        rw [length_capCells]
        exact List.length_map cs _
  | obj cs => rfl
  | float64 cs =>
      simp only [capColC, colLen]
      exact length_capCells cs
  | datetime cs => rfl

lemma colSig_map (f : String × Col → String × Col)
    (hf : ∀ p, (f p).1 = p.1) (hl : ∀ p, colLen (f p).2 = colLen p.2) (df : Table) :
    colSig (df.map f) = colSig df := by
  unfold colSig
  rw [List.map_map]
  apply List.map_congr_left
  intro p _
  simp [Function.comp, hf p, hl p]

lemma colSig_standardize (df : Table) :
    colSig (standardize_datatypes df) = colSig df :=
  colSig_map (fun p => (p.1, standardizeCol p.2)) (fun _ => rfl)
    (fun p => colLen_standardizeCol p.2) df

lemma handle_missing_values_eq (df df' : Table)
    (h : handle_missing_values df = some df') :
    df' = df.map (fun p => (p.1, imputeCol p.2)) := by
  unfold handle_missing_values at h
  split_ifs at h
  exact (Option.some_injective _ h).symm

lemma colSig_handle_missing (df df' : Table)
    (h : handle_missing_values df = some df') : colSig df' = colSig df := by
  rw [handle_missing_values_eq df df' h]
  exact colSig_map (fun p => (p.1, imputeCol p.2)) (fun _ => rfl)
    (fun p => colLen_imputeCol p.2) df

lemma colSig_remove_outliers (df : Table) :
    colSig (remove_outliers df).1 = colSig df :=
  colSig_map (fun p => (p.1, (capColC p.2).1)) (fun _ => rfl)
    (fun p => colLen_capColC p.2) df

lemma nRows_eq_of_colSig {df df' : Table} (h : colSig df' = colSig df) :
    nRows df' = nRows df := by
  cases df with
  | nil =>
      cases df' with
      | nil => rfl
      | cons a l => simp [colSig] at h
  | cons a l =>
      cases df' with
      | nil => simp [colSig] at h
      | cons b m =>
          simp only [colSig, List.map_cons, List.cons.injEq, Prod.mk.injEq] at h
          simp [nRows, h.1.2]

/-! ### Claims about table shape and the frame behaviour of the report stages -/

/-- C7: no stage of the pipeline (Type Normalizer, Imputer, Outlier Capper)
changes the table's name-and-length signature: the column names (hence the
column set) are unchanged and every column keeps its cell count (hence the row
count is never reduced). -/
theorem stages_preserve_shape (df df' : Table) :
    colSig (standardize_datatypes df) = colSig df ∧
    (handle_missing_values df = some df' → colSig df' = colSig df) ∧
    colSig (remove_outliers df).1 = colSig df :=
  ⟨colSig_standardize df,
   fun h => colSig_handle_missing df df' h,
   colSig_remove_outliers df⟩

/-- Witness for C7: the Imputer-stage conjunct at a concrete table. -/
theorem stages_preserve_shape_witness :
    colSig [(("n"), Col.float64 [some 10, some 20, some 20, some 30])] =
      colSig [(("n"), Col.float64 [some 10, none, some 20, some 30])] :=
  (stages_preserve_shape [(("n"), Col.float64 [some 10, none, some 20, some 30])]
      [(("n"), Col.float64 [some 10, some 20, some 20, some 30])]).2.1 (by decide)

/-- C9: the Quality Auditor and the Validator leave the table unchanged — in
the state-passing embedding both return the input table identically, so every
cell, every column type and the row and column counts are preserved. -/
theorem auditor_validator_no_mutation (df : Table) (shape : Nat × Nat)
    (rep : CleaningReport) :
    (check_data_quality df).1 = df ∧ (validate_cleaning df shape rep).1 = df :=
  ⟨rfl, rfl⟩

lemma colMissing_of_colLen_zero (c : Col) (h : colLen c = 0) : colMissing c = 0 := by
  cases c <;>
    simp only [colLen, List.length_eq_zero] at h <;>
    simp [colMissing, h]

lemma nRows_of_all_empty (df : Table) (h : ∀ p ∈ df, colLen p.2 = 0) :
    nRows df = 0 := by
  cases df with
  | nil => rfl
  | cons a l => exact h a (List.mem_cons_self a l)

/-- C8: on a table with zero rows (every column empty) the Quality Auditor
reports `total_rows = 0`, `duplicates = 0` and a missing-value count of 0 for
every column, and (being a total function) raises no error. -/
theorem check_data_quality_empty_table (df : Table)
    (h : ∀ p ∈ df, colLen p.2 = 0) :
    (check_data_quality df).2.total_rows = 0 ∧
    (check_data_quality df).2.duplicates = 0 ∧
    (check_data_quality df).2.missing_values = df.map (fun p => (p.1, 0)) := by
  refine ⟨nRows_of_all_empty df h, ?_, ?_⟩
  · simp [check_data_quality, duplicates, nRows_of_all_empty df h, dupCount]
  · simp only [check_data_quality]
    apply List.map_congr_left
    intro p hp
    simp [colMissing_of_colLen_zero p.2 (h p hp)]

/-- Witness for C8: a two-column, zero-row table. -/
theorem check_data_quality_empty_table_witness :
    (check_data_quality [(("a"), Col.obj []), (("b"), Col.int64 [])]).2.total_rows = 0 ∧
    (check_data_quality [(("a"), Col.obj []), (("b"), Col.int64 [])]).2.duplicates = 0 ∧
    (check_data_quality [(("a"), Col.obj []), (("b"), Col.int64 [])]).2.missing_values =
      ([(("a"), Col.obj []), (("b"), Col.int64 [])] : Table).map (fun p => (p.1, 0)) :=
  check_data_quality_empty_table [(("a"), Col.obj []), (("b"), Col.int64 [])] (by decide)

/-! ### Claims about the Imputer -/

/-- C10: once the Imputer runs on a table containing an integer column, every
numeric column comes back as `float64` (the sklearn imputer returns a float
array), even where nothing was missing: no column of the result is `int64`,
and the integer column reappears as floats of the same values. -/
theorem imputer_rewrites_numeric_as_float (df df' : Table) (name : String)
    (cs : List Int) (hmem : (name, Col.int64 cs) ∈ df)
    (h : handle_missing_values df = some df') :
    ((name, Col.float64 (cs.map (fun (z : Int) => some ((z : ℚ))))) ∈ df') ∧
    ∀ p ∈ df', ∀ zs : List Int, p.2 ≠ Col.int64 zs := by
  rw [handle_missing_values_eq df df' h]
  constructor
  · exact List.mem_map_of_mem (fun p => (p.1, imputeCol p.2)) hmem
  · intro p hp zs
    obtain ⟨q, _, rfl⟩ := List.mem_map.1 hp
    cases q.2 <;> simp [imputeCol]

/-- Witness for C10 at a one-column integer table with no missing cell. -/
theorem imputer_rewrites_numeric_as_float_witness :
    ((("i"), Col.float64 ([(2 : Int)].map (fun (z : Int) => some ((z : ℚ))))) ∈
        ([(("i"), Col.float64 [some 2])] : Table)) ∧
    ∀ p ∈ ([(("i"), Col.float64 [some 2])] : Table), ∀ zs : List Int,
      p.2 ≠ Col.int64 zs :=
  imputer_rewrites_numeric_as_float [(("i"), Col.int64 [2])]
    [(("i"), Col.float64 [some 2])] ("i") [2] (by decide) (by decide)

/-- C3 fails as stated: a `datetime64` column is neither numeric nor
categorical, so the Imputer leaves it untouched; a temporal column with one
present value and one `NaT` still has a missing cell after the stage. -/
theorem imputer_temporal_counterexample :
    handle_missing_values [(("d"), Col.datetime [some 0, none])] =
        some [(("d"), Col.datetime [some 0, none])] ∧
    ([some (0 : Int), none].filterMap id ≠ []) ∧
    colMissing (Col.datetime [some 0, none]) = 1 := by
  decide

/-- C3 amended: after the Imputer succeeds, no missing cell remains in any
numeric or categorical (non-temporal) column; temporal columns are outside
the Imputer's scope. -/
theorem imputer_no_missing_nontemporal (df df' : Table)
    (h : handle_missing_values df = some df') :
    ∀ p ∈ df', (∀ cs, p.2 ≠ Col.datetime cs) → colMissing p.2 = 0 := by
  rw [handle_missing_values_eq df df' h]
  intro p hp hnt
  obtain ⟨q, _, rfl⟩ := List.mem_map.1 hp
  cases hq : q.2 with
  | obj cs => simp [imputeCol, hq, colMissing]
  | int64 cs => simp [imputeCol, hq, colMissing]
  | float64 cs => simp [imputeCol, hq, colMissing]
  | datetime cs => exact absurd (by simp [imputeCol, hq]) (hnt cs)

/-- Witness for C3 (amended) at a table with one partially missing float
column. -/
theorem imputer_no_missing_nontemporal_witness :
    colMissing (Col.float64 [some 10, some 20, some 20, some 30]) = 0 :=
  imputer_no_missing_nontemporal
    [(("n"), Col.float64 [some 10, none, some 20, some 30])]
    [(("n"), Col.float64 [some 10, some 20, some 20, some 30])]
    (by decide)
    (("n"), Col.float64 [some 10, some 20, some 20, some 30])
    (by decide) (by intro cs; simp)

/-- Modelled from the spec: the claimed tie-breaking rule for the categorical
imputer, "ties broken by first-encountered value in column order" — the first
value of the column attaining the maximal multiplicity. -/
def modeFirstEncountered (l : List String) : String :=
  let m := (l.map (fun v => l.count v)).foldr max 0
  (l.find? (fun v => l.count v == m)).getD ("")

/-- C2 fails as stated: on the categorical column `[b, b, a, a, missing]`
both values are equally frequent; the first-encountered rule of the claim
picks `b`, but sklearn's `most_frequent` strategy picks the smallest value
`a`, so the imputed table differs from the claim's prediction. -/
theorem imputer_tiebreak_counterexample :
    handle_missing_values
        [(("c"), Col.obj [some ("b"), some ("b"), some ("a"), some ("a"), none])] ≠
      some [(("c"), Col.obj [some ("b"), some ("b"), some ("a"), some ("a"),
        some (modeFirstEncountered [("b"), ("b"), ("a"), ("a")])])] := by
  decide

/-- C2 amended: the Imputer replaces every missing cell of a numeric column
with the column's median over present values, and every missing cell of a
categorical column with its most frequent present value, ties among equally
frequent values broken by the smallest value rather than the
first-encountered one. -/
theorem imputer_median_and_mode (df df' : Table)
    (h : handle_missing_values df = some df') :
    (∀ name cells, (name, Col.float64 cells) ∈ df →
       (name, Col.float64 (cells.map
         (fun c => some (c.getD (median (cells.filterMap id)))))) ∈ df') ∧
    (∀ name cells, (name, Col.obj cells) ∈ df →
       (name, Col.obj (cells.map
         (fun c => some (c.getD (modeMin (cells.filterMap id)))))) ∈ df') := by
  rw [handle_missing_values_eq df df' h]
  constructor
  · intro name cells hmem
    exact List.mem_map_of_mem (fun p => (p.1, imputeCol p.2)) hmem
  · intro name cells hmem
    exact List.mem_map_of_mem (fun p => (p.1, imputeCol p.2)) hmem

/-- Witness for C2 (amended), covering the spec's numeric example
`[10, missing, 20, 30]` (median 20) and a categorical column. -/
theorem imputer_median_and_mode_witness :
    ((("n"), Col.float64 ([some 10, none, some 20, some 30].map
        (fun c => some (c.getD (median ([some (10 : ℚ), none, some 20, some 30].filterMap id)))))) ∈
      ([(("n"), Col.float64 [some 10, some 20, some 20, some 30]),
        (("c"), Col.obj [some ("x"), some ("x")])] : Table)) :=
  (imputer_median_and_mode
      [(("n"), Col.float64 [some 10, none, some 20, some 30]),
       (("c"), Col.obj [some ("x"), none])]
      [(("n"), Col.float64 [some 10, some 20, some 20, some 30]),
       (("c"), Col.obj [some ("x"), some ("x")])]
      (by decide)).1
    ("n") [some 10, none, some 20, some 30] (by decide)

/-! ### Claims about the Type Normalizer and the Outlier Capper -/

/-- C4: an `object` column is converted to temporal only when all present
values parse as dates, and to numeric only when all present values parse as
numbers after stripping currency symbols; when neither format covers all
present values the column is returned unchanged.  Concretely,
`["$1,200", "$350", "$40"]` becomes the integer column `[1200, 350, 40]`
while `["$1,200", "abc", "$40"]` is left unchanged. -/
theorem standardize_all_or_nothing :
    (∀ cells ds, convertCol cells = Col.datetime ds →
        presentAll (fun v => (parseDate v).isSome) cells = true) ∧
    (∀ cells zs, convertCol cells = Col.int64 zs →
        presentAll (fun v => (parseNum (stripMoney v)).isSome) cells = true) ∧
    (∀ cells qs, convertCol cells = Col.float64 qs →
        presentAll (fun v => (parseNum (stripMoney v)).isSome) cells = true) ∧
    (∀ cells, presentAll (fun v => (parseDate v).isSome) cells = false →
        presentAll (fun v => (parseNum (stripMoney v)).isSome) cells = false →
        convertCol cells = Col.obj cells) ∧
    standardize_datatypes
        [(("price"), Col.obj [some ("$1,200"), some ("$350"), some ("$40")])] =
      [(("price"), Col.int64 [1200, 350, 40])] ∧
    standardize_datatypes
        [(("price"), Col.obj [some ("$1,200"), some ("abc"), some ("$40")])] =
      [(("price"), Col.obj [some ("$1,200"), some ("abc"), some ("$40")])] := by
  refine ⟨?_, ?_, ?_, ?_, by decide, by decide⟩
  · intro cells ds hconv
    unfold convertCol at hconv
    split_ifs at hconv with h1 h2 h3
    all_goals simp_all
  · intro cells zs hconv
    unfold convertCol at hconv
    split_ifs at hconv with h1 h2 h3
    all_goals simp_all
  · intro cells qs hconv
    unfold convertCol at hconv
    split_ifs at hconv with h1 h2 h3
    all_goals simp_all
  · intro cells h1 h2
    unfold convertCol
    split_ifs <;> simp_all

/-- Witness for C4: the mixed-format column stays at its original type. -/
theorem standardize_all_or_nothing_witness :
    convertCol [some ("$1,200"), some ("abc"), some ("$40")] =
      Col.obj [some ("$1,200"), some ("abc"), some ("$40")] :=
  standardize_all_or_nothing.2.2.2.1
    [some ("$1,200"), some ("abc"), some ("$40")] (by decide) (by decide)

/-- C6: on the numeric column `[1,2,3,4,100]` the linear-interpolation
quantiles give `Q1 = 2`, `Q3 = 4`, hence `IQR = 2` and fences `[-1, 7]`; the
Outlier Capper produces `[1,2,3,4,7]` and records count 1 under the column's
name. -/
theorem capper_concrete_example :
    quantile [1, 2, 3, 4, 100] (1 / 4) = 2 ∧
    quantile [1, 2, 3, 4, 100] (3 / 4) = 4 ∧
    quantile [1, 2, 3, 4, 100] (3 / 4) - quantile [1, 2, 3, 4, 100] (1 / 4) = 2 ∧
    lowerB [1, 2, 3, 4, 100] = -1 ∧
    upperB [1, 2, 3, 4, 100] = 7 ∧
    remove_outliers [(("x"), Col.int64 [1, 2, 3, 4, 100])] =
      ([(("x"), Col.float64 [some 1, some 2, some 3, some 4, some 7])],
       [(("x"), 1)]) := by
  decide

/-! ### Quantile monotonicity and the general Outlier Capper claim -/

lemma sorted_getD_le {s : List ℚ} (hs : s.Sorted (· ≤ ·)) {i j : Nat}
    (hij : i ≤ j) (hj : j < s.length) (d e : ℚ) : s.getD i d ≤ s.getD j e := by
  have hi : i < s.length := Nat.lt_of_le_of_lt hij hj
  rw [List.getD_eq_getElem s d hi, List.getD_eq_getElem s e hj]
  rcases Nat.eq_or_lt_of_le hij with heq | hlt
  · subst heq
    exact le_refl _
  · exact List.pairwise_iff_getElem.1 hs i j hi hj hlt

lemma interpAt_mono {s : List ℚ} (hs : s.Sorted (· ≤ ·)) {x y : ℚ}
    (hx : 0 ≤ x) (hxy : x ≤ y) (hy : y ≤ (s.length : ℚ) - 1) :
    interpAt s x ≤ interpAt s y := by
  have hy0 : 0 ≤ y := le_trans hx hxy
  have hn1 : (1 : ℚ) ≤ (s.length : ℚ) := by linarith
  have hn : 1 ≤ s.length := by exact_mod_cast hn1
  have hfx0 : (0 : Int) ≤ ⌊x⌋ := Int.floor_nonneg.mpr hx
  have hfy0 : (0 : Int) ≤ ⌊y⌋ := Int.floor_nonneg.mpr hy0
  set i := (⌊x⌋).toNat with hidef
  set j := (⌊y⌋).toNat with hjdef
  have hicast : ((i : Nat) : ℚ) = ((⌊x⌋ : Int) : ℚ) := by
    rw [hidef]
    exact_mod_cast congrArg (fun z => ((z : Int) : ℚ)) (Int.toNat_of_nonneg hfx0)
  have hjcast : ((j : Nat) : ℚ) = ((⌊y⌋ : Int) : ℚ) := by
    rw [hjdef]
    exact_mod_cast congrArg (fun z => ((z : Int) : ℚ)) (Int.toNat_of_nonneg hfy0)
  have hix : ((i : Nat) : ℚ) ≤ x := by rw [hicast]; exact Int.floor_le x
  have hjy : ((j : Nat) : ℚ) ≤ y := by rw [hjcast]; exact Int.floor_le y
  have hxi : x < (i : ℚ) + 1 := by rw [hicast]; exact Int.lt_floor_add_one x
  have hij : i ≤ j := by
    rw [hidef, hjdef]
    exact Int.toNat_le_toNat (Int.floor_le_floor hxy)
  have hjtop : (⌊y⌋ : Int) ≤ (s.length : Int) - 1 := by
    have h1 : (⌊y⌋ : Int) ≤ ⌊(s.length : ℚ) - 1⌋ := Int.floor_le_floor hy
    have h2 : ((s.length : ℚ) - 1) = (((s.length : Int) - 1 : Int) : ℚ) := by push_cast; ring
    rw [h2, Int.floor_intCast] at h1
    exact h1
  have hjlt : j < s.length := by omega
  have hilt : i < s.length := Nat.lt_of_le_of_lt hij hjlt
  set a := s.getD i 0 with hadef
  set b := s.getD (i + 1) a with hbdef
  set a2 := s.getD j 0 with ha2def
  set b2 := s.getD (j + 1) a2 with hb2def
  have hab : a ≤ b := by
    rcases Nat.lt_or_ge (i + 1) s.length with h | h
    · exact sorted_getD_le hs (Nat.le_succ i) h 0 a
    · rw [hbdef, List.getD_eq_default s a h]
  have hab2 : a2 ≤ b2 := by
    rcases Nat.lt_or_ge (j + 1) s.length with h | h
    · exact sorted_getD_le hs (Nat.le_succ j) h 0 a2
    · rw [hb2def, List.getD_eq_default s a2 h]
  show a + (x - (i : ℚ)) * (b - a) ≤ a2 + (y - (j : ℚ)) * (b2 - a2)
  rcases Nat.eq_or_lt_of_le hij with heq | hlt
  · have haa : a2 = a := by rw [ha2def, ← heq, ← hadef]
    have hbb : b2 = b := by rw [hb2def, haa, ← heq, ← hbdef]
    have hjq : ((j : Nat) : ℚ) = ((i : Nat) : ℚ) := by rw [← heq]
    have hfxy : x - (i : ℚ) ≤ y - (j : ℚ) := by rw [hjq]; linarith
    have hmul := mul_le_mul_of_nonneg_right hfxy (sub_nonneg.mpr hab)
    rw [haa, hbb]
    linarith
  · have h1 : a + (x - (i : ℚ)) * (b - a) ≤ b := by nlinarith [hab, hix, hxi]
    have hi1j : i + 1 ≤ j := hlt
    have h2 : b ≤ a2 := sorted_getD_le hs hi1j hjlt a 0
    have h3 : a2 ≤ a2 + (y - (j : ℚ)) * (b2 - a2) := by nlinarith [hab2, hjy]
    linarith

lemma quantile_mono (l : List ℚ) (hl : l ≠ []) {p q : ℚ}
    (hp : 0 ≤ p) (hpq : p ≤ q) (hq : q ≤ 1) : quantile l p ≤ quantile l q := by
  have hs := List.sorted_insertionSort (· ≤ ·) l
  have hlen : (l.insertionSort (· ≤ ·)).length = l.length :=
    (List.perm_insertionSort (· ≤ ·) l).length_eq
  have hpos : 1 ≤ l.length := List.length_pos.mpr hl
  have hN : (0 : ℚ) ≤ (l.length : ℚ) - 1 := by
    have : (1 : ℚ) ≤ (l.length : ℚ) := by exact_mod_cast hpos
    linarith
  apply interpAt_mono hs
  · exact mul_nonneg hp hN
  · exact mul_le_mul_of_nonneg_right hpq hN
  · rw [hlen]
    calc q * ((l.length : ℚ) - 1) ≤ 1 * ((l.length : ℚ) - 1) :=
          mul_le_mul_of_nonneg_right hq hN
      _ = (l.length : ℚ) - 1 := one_mul _

lemma lowerB_le_upperB (pres : List ℚ) (h : pres ≠ []) :
    lowerB pres ≤ upperB pres := by
  have hq := quantile_mono pres h (p := 1 / 4) (q := 3 / 4)
    (by norm_num) (by norm_num) (by norm_num)
  unfold lowerB upperB
  linarith

lemma filterMap_id_map_optionMap (f : ℚ → ℚ) (cells : List (Option ℚ)) :
    (cells.map (Option.map f)).filterMap id = (cells.filterMap id).map f := by
  induction cells with
  | nil => rfl
  | cons c rest ih => cases c <;> simp [ih]

/-- The numeric cell list of a column selected by
`select_dtypes(include=['int64','float64'])`. -/
def numCells : Col → Option (List (Option ℚ))
  | Col.int64 cs => some (cs.map (fun (z : Int) => some ((z : ℚ))))
  | Col.float64 cs => some cs
  | _ => none

lemma capCells_of_present (cells : List (Option ℚ))
    (hguard : (cells.filterMap id).isEmpty = false) :
    capCells cells =
      (cells.map (Option.map (fun x =>
         min (upperB (cells.filterMap id)) (max (lowerB (cells.filterMap id)) x))),
       outlierCount cells) := by
  unfold capCells
  rw [hguard]
  simp only [Bool.false_eq_true, if_false]

lemma capColC_of_numCells (c : Col) (cells : List (Option ℚ))
    (hcells : numCells c = some cells) (hpres : cells.filterMap id ≠ []) :
    capColC c =
      (Col.float64 (cells.map (Option.map (fun x =>
         min (upperB (cells.filterMap id)) (max (lowerB (cells.filterMap id)) x)))),
       outlierCount cells) := by
  have hguard : (cells.filterMap id).isEmpty = false := by
    cases hc : cells.filterMap id with
    | nil => exact absurd hc hpres
    | cons a l => simp
  cases c with
  | int64 cs =>
      have hc : cells = cs.map (fun (z : Int) => some ((z : ℚ))) := by
        simpa [numCells] using hcells.symm
      have hne : cs.isEmpty = false := by
        cases cs with
        | nil =>
            exfalso
            apply hpres
            rw [hc]
            rfl
        | cons z zs => simp
      subst hc
      show (if cs.isEmpty = true then _ else _) = _
      rw [hne]
      simp only [Bool.false_eq_true, if_false]
      rw [capCells_of_present _ hguard]
  | float64 cs =>
      have hc : cells = cs := by simpa [numCells] using hcells.symm
      rw [hc] at hguard ⊢
      show (Col.float64 (capCells cs).1, (capCells cs).2) = _
      rw [capCells_of_present _ hguard]
  | obj cs => simp [numCells] at hcells
  | datetime cs => simp [numCells] at hcells

lemma lookup_filterMap_of_not_mem (tl : Table) (name : String)
    (h : name ∉ tl.map Prod.fst) :
    List.lookup name (tl.filterMap (fun p =>
      if 0 < (capColC p.2).2 then some (p.1, (capColC p.2).2) else none)) = none := by
  induction tl with
  | nil => rfl
  | cons hd rest ih =>
      obtain ⟨hdn, hdc⟩ := hd
      simp only [List.map_cons, List.mem_cons, not_or] at h
      have hb : (name == hdn) = false := by
        simp only [beq_eq_false_iff_ne, ne_eq]
        exact h.1
      by_cases h0 : 0 < (capColC hdc).2
      · rw [List.filterMap_cons_some
          (b := (hdn, (capColC hdc).2)) (by simp [h0])]
        simp only [List.lookup, hb]
        exact ih h.2
      · rw [List.filterMap_cons_none (by simp [h0])]
        exact ih h.2

lemma lookup_remove_outliers (df : Table) (name : String) (c : Col)
    (hnd : (df.map Prod.fst).Nodup) (hmem : (name, c) ∈ df) :
    List.lookup name (remove_outliers df).2 =
      if 0 < (capColC c).2 then some (capColC c).2 else none := by
  show List.lookup name (df.filterMap (fun p =>
      if 0 < (capColC p.2).2 then some (p.1, (capColC p.2).2) else none)) = _
  induction df with
  | nil => cases hmem
  | cons hd rest ih =>
      obtain ⟨hdn, hdc⟩ := hd
      simp only [List.map_cons, List.nodup_cons] at hnd
      rcases List.mem_cons.1 hmem with heq | htl
      · have hn1 : hdn = name := (congrArg Prod.fst heq).symm
        have hn2 : hdc = c := (congrArg Prod.snd heq).symm
        subst hn1
        subst hn2
        by_cases h0 : 0 < (capColC hdc).2
        · rw [List.filterMap_cons_some
            (b := (hdn, (capColC hdc).2)) (by simp [h0]), if_pos h0]
          simp [List.lookup]
        · rw [List.filterMap_cons_none (by simp [h0]), if_neg h0]
          exact lookup_filterMap_of_not_mem rest hdn hnd.1
      · have hname : name ∈ rest.map Prod.fst := by
          have := List.mem_map_of_mem Prod.fst htl
          simpa using this
        have hne : hdn ≠ name := fun hcontra => hnd.1 (hcontra ▸ hname)
        have hb : (name == hdn) = false := by
          simp only [beq_eq_false_iff_ne, ne_eq]
          exact fun hcontra => hne hcontra.symm
        by_cases h0 : 0 < (capColC hdc).2
        · rw [List.filterMap_cons_some
            (b := (hdn, (capColC hdc).2)) (by simp [h0])]
          simp only [List.lookup, hb]
          exact ih hnd.2 htl
        · rw [List.filterMap_cons_none (by simp [h0])]
          exact ih hnd.2 htl

/-- C5: for every numeric column with at least one present value, after the
Outlier Capper runs every present cell of that column lies within
`[lower_bound, upper_bound]` (the quantile fences over the column's present
values before modification), and the count of cells strictly outside the
fences before modification is recorded under the column's name in the
outliers-map exactly when that count is positive. -/
theorem capper_bounds_and_report (df : Table) (name : String) (c : Col)
    (cells : List (Option ℚ))
    (hnd : (df.map Prod.fst).Nodup)
    (hmem : (name, c) ∈ df)
    (hcells : numCells c = some cells)
    (hpres : cells.filterMap id ≠ []) :
    ((name, Col.float64 (cells.map (Option.map (fun x =>
        min (upperB (cells.filterMap id)) (max (lowerB (cells.filterMap id)) x))))) ∈
      (remove_outliers df).1) ∧
    (∀ v ∈ (cells.map (Option.map (fun x =>
        min (upperB (cells.filterMap id)) (max (lowerB (cells.filterMap id)) x)))).filterMap id,
      lowerB (cells.filterMap id) ≤ v ∧ v ≤ upperB (cells.filterMap id)) ∧
    List.lookup name (remove_outliers df).2 =
      (if 0 < outlierCount cells then some (outlierCount cells) else none) := by
  have hcap := capColC_of_numCells c cells hcells hpres
  refine ⟨?_, ?_, ?_⟩
  · have hm := List.mem_map_of_mem (fun p => (p.1, (capColC p.2).1)) hmem
    have hm' : (name, (capColC c).1) ∈ df.map (fun p => (p.1, (capColC p.2).1)) := hm
    rw [hcap] at hm'
    exact hm'
  · intro v hv
    rw [filterMap_id_map_optionMap] at hv
    obtain ⟨x, hx, rfl⟩ := List.mem_map.1 hv
    have hlohi := lowerB_le_upperB (cells.filterMap id) hpres
    exact ⟨le_min hlohi (le_max_left _ _), min_le_left _ _⟩
  · rw [lookup_remove_outliers df name c hnd hmem, hcap]

/-- Witness for C5 on the column `[1,2,3,4,100]` held as floats. -/
theorem capper_bounds_and_report_witness :
    ((("x"), Col.float64 ([some (1 : ℚ), some 2, some 3, some 4, some 100].map (Option.map (fun x =>
        min (upperB ([some (1 : ℚ), some 2, some 3, some 4, some 100].filterMap id))
          (max (lowerB ([some (1 : ℚ), some 2, some 3, some 4, some 100].filterMap id)) x))))) ∈
      (remove_outliers [(("x"), Col.float64 [some 1, some 2, some 3, some 4, some 100])]).1) ∧
    (∀ v ∈ ([some (1 : ℚ), some 2, some 3, some 4, some 100].map (Option.map (fun x =>
        min (upperB ([some (1 : ℚ), some 2, some 3, some 4, some 100].filterMap id))
          (max (lowerB ([some (1 : ℚ), some 2, some 3, some 4, some 100].filterMap id)) x)))).filterMap id,
      lowerB ([some (1 : ℚ), some 2, some 3, some 4, some 100].filterMap id) ≤ v ∧
        v ≤ upperB ([some (1 : ℚ), some 2, some 3, some 4, some 100].filterMap id)) ∧
    List.lookup ("x")
        (remove_outliers [(("x"), Col.float64 [some 1, some 2, some 3, some 4, some 100])]).2 =
      (if 0 < outlierCount [some (1 : ℚ), some 2, some 3, some 4, some 100] then
        some (outlierCount [some (1 : ℚ), some 2, some 3, some 4, some 100]) else none) :=
  capper_bounds_and_report
    [(("x"), Col.float64 [some 1, some 2, some 3, some 4, some 100])] ("x")
    (Col.float64 [some 1, some 2, some 3, some 4, some 100])
    [some 1, some 2, some 3, some 4, some 100]
    (by decide) (by decide) rfl (by decide)

/-! ### The pipeline-level claim on data loss -/

/-- C1: for every input table with at least one row on which the pipeline
returns, the validation block of the cleaning report has
`data_loss_percentage` exactly 0, because no stage changes the row count. -/
theorem pipeline_data_loss_zero (df t : Table) (rep : CleaningReport)
    (hrows : 0 < nRows df)
    (h : automated_cleaning_pipeline df = some (t, rep)) :
    nRows t = nRows df ∧
    ∃ v, rep.validation = some v ∧ v.data_loss_percentage = 0 := by
  simp only [automated_cleaning_pipeline, check_data_quality] at h
  cases hh : handle_missing_values (standardize_datatypes df) with
  | none =>
      rw [hh] at h
      simp at h
  | some df3 =>
      rw [hh] at h
      simp only [validate_cleaning] at h
      rw [if_neg (Nat.pos_iff_ne_zero.mp hrows)] at h
      injection h with hpair
      injection hpair with h1 h2
      subst h1
      subst h2
      have e1 : nRows (remove_outliers df3).1 = nRows df3 :=
        nRows_eq_of_colSig (colSig_remove_outliers df3)
      have e2 : nRows df3 = nRows (standardize_datatypes df) :=
        nRows_eq_of_colSig (colSig_handle_missing _ _ hh)
      have e3 : nRows (standardize_datatypes df) = nRows df :=
        nRows_eq_of_colSig (colSig_standardize df)
      have hr : nRows (remove_outliers df3).1 = nRows df := by omega
      refine ⟨hr, _, rfl, ?_⟩
      show (1 - (nRows (remove_outliers df3).1 : ℚ) / ((nRows df : ℚ))) * 100 = 0
      rw [hr]
      rw [div_self (by exact_mod_cast (Nat.pos_iff_ne_zero.mp hrows) :
        ((nRows df : ℚ)) ≠ 0)]
      ring

/-- Witness for C1 at a one-column, one-row table. -/
theorem pipeline_data_loss_zero_witness :
    nRows [(("a"), Col.float64 [some 1])] = nRows [(("a"), Col.float64 [some 1])] ∧
    ∃ v, (CleaningReport.mk
        (some { missing_values := [(("a"), 0)], duplicates := 0, total_rows := 1,
                memory_usage := 35 / 262144 })
        (some [])
        (some { rows_remaining := 1, missing_values_remaining := 0,
                duplicates_remaining := 0, data_loss_percentage := 0 })).validation =
      some v ∧ v.data_loss_percentage = 0 :=
  pipeline_data_loss_zero [(("a"), Col.float64 [some 1])]
    [(("a"), Col.float64 [some 1])]
    (CleaningReport.mk
      (some { missing_values := [(("a"), 0)], duplicates := 0, total_rows := 1,
              memory_usage := 35 / 262144 })
      (some [])
      (some { rows_remaining := 1, missing_values_remaining := 0,
              duplicates_remaining := 0, data_loss_percentage := 0 }))
    (by decide) (by decide)

end DataCleaning
